import Mathlib

/-!
# Verification development for the mcp-openai-image server

Shallow embedding of the configuration store (`src/config-manager.ts`), the
output/file store (`src/file-manager.ts`) and the generation client
(`src/image-generator.ts`, constants from `src/types.ts`).

Modelling conventions:
* JavaScript strings are Lean `String`s; string comparison
  (`b.localeCompare(a)` on the ASCII artifact names) is modelled as
  lexicographic comparison of Unicode code points.
* Timestamps (`new Date()`) are naturals (milliseconds since the epoch);
  the ISO-8601 rendering used by the source is strictly monotone in the
  underlying instant, so order claims are stated on the naturals and the
  rendered string is passed separately where the source embeds it in text.
* Asynchronous functions are sequential (the server awaits every call);
  fallible operations return `Except`, and every operation additionally
  returns the successor state and the list of I/O effects it performed.
* `Math.random().toString(36)` is modelled by its result string.
-/

/-- Strict lexicographic order on lists of characters, by Unicode code point.
Models the character-by-character comparison underlying JavaScript string
ordering for the ASCII names this system generates. -/
def lexLt : List Char → List Char → Bool
  | [], [] => false
  | [], _ :: _ => true
  | _ :: _, [] => false
  | a :: as, b :: bs => if a < b then true else if b < a then false else lexLt as bs

/-- Reflexive lexicographic order on lists of characters. -/
def lexLe : List Char → List Char → Bool
  | [], _ => true
  | _ :: _, [] => false
  | a :: as, b :: bs => if a < b then true else if b < a then false else lexLe as bs

theorem lexLe_refl (a : List Char) : lexLe a a = true := by
  induction a with
  | nil => rfl
  | cons x xs ih => simp [lexLe, ih]

theorem lexLe_total (a b : List Char) : lexLe a b = true ∨ lexLe b a = true := by
  induction a generalizing b with
  | nil => exact Or.inl rfl
  | cons x xs ih =>
    cases b with
    | nil => exact Or.inr rfl
    | cons y ys =>
      rcases lt_trichotomy x y with h | h | h
      · exact Or.inl (by simp [lexLe, h])
      · subst h
        rcases ih ys with h' | h'
        · exact Or.inl (by simp [lexLe, h'])
        · exact Or.inr (by simp [lexLe, h'])
      · exact Or.inr (by simp [lexLe, h])

theorem lexLe_trans {a b c : List Char} (h₁ : lexLe a b = true) (h₂ : lexLe b c = true) :
    lexLe a c = true := by
  induction a generalizing b c with
  | nil => rfl
  | cons x xs ih =>
    cases b with
    | nil => simp [lexLe] at h₁
    | cons y ys =>
      cases c with
      | nil => simp [lexLe] at h₂
      | cons z zs =>
        rcases lt_trichotomy x y with hxy | hxy | hxy
        · rcases lt_trichotomy y z with hyz | hyz | hyz
          · simp [lexLe, lt_trans hxy hyz]
          · subst hyz; simp [lexLe, hxy]
          · simp [lexLe, hyz, asymm hyz] at h₂
        · subst hxy
          simp only [lexLe, lt_self_iff_false, if_false] at h₁
          rcases lt_trichotomy x z with hxz | hxz | hxz
          · simp [lexLe, hxz]
          · subst hxz
            simp only [lexLe, lt_self_iff_false, if_false] at h₂
            simp only [lexLe, lt_self_iff_false, if_false]
            exact ih h₁ h₂
          · simp [lexLe, hxz, asymm hxz] at h₂
        · simp [lexLe, hxy, asymm hxy] at h₁

theorem lexLe_antisymm {a b : List Char} (h₁ : lexLe a b = true) (h₂ : lexLe b a = true) :
    a = b := by
  induction a generalizing b with
  | nil =>
    cases b with
    | nil => rfl
    | cons y ys => simp [lexLe] at h₂
  | cons x xs ih =>
    cases b with
    | nil => simp [lexLe] at h₁
    | cons y ys =>
      rcases lt_trichotomy x y with h | h | h
      · simp [lexLe, h, asymm h] at h₂
      · subst h
        simp only [lexLe, lt_self_iff_false, if_false] at h₁ h₂
        exact congrArg (List.cons x) (ih h₁ h₂)
      · simp [lexLe, h, asymm h] at h₁

theorem lexLe_of_lexLt {a b : List Char} (h : lexLt a b = true) : lexLe a b = true := by
  induction a generalizing b with
  | nil => rfl
  | cons x xs ih =>
    cases b with
    | nil => simp [lexLt] at h
    | cons y ys =>
      rcases lt_trichotomy x y with hxy | hxy | hxy
      · simp [lexLe, hxy]
      · subst hxy
        simp only [lexLt, lt_self_iff_false, if_false] at h
        simp only [lexLe, lt_self_iff_false, if_false]
        exact ih h
      · simp [lexLt, hxy, asymm hxy] at h

theorem lexLt_append_left (p a b : List Char) :
    lexLt (p ++ a) (p ++ b) = lexLt a b := by
  induction p with
  | nil => rfl
  | cons c cs ih => simp [lexLt, ih]

theorem lexLt_append_of_length_eq {a b : List Char} (u v : List Char)
    (hlen : a.length = b.length) (h : lexLt a b = true) :
    lexLt (a ++ u) (b ++ v) = true := by
  induction a generalizing b with
  | nil =>
    cases b with
    | nil => simp [lexLt] at h
    | cons y ys => simp at hlen
  | cons x xs ih =>
    cases b with
    | nil => simp at hlen
    | cons y ys =>
      simp only [List.length_cons, Nat.succ.injEq] at hlen
      rcases lt_trichotomy x y with hxy | hxy | hxy
      · simp [lexLt, hxy]
      · subst hxy
        simp only [lexLt, lt_self_iff_false, if_false] at h
        simp only [List.cons_append, lexLt, lt_self_iff_false, if_false]
        exact ih hlen h
      · simp [lexLt, hxy, asymm hxy] at h

/-- List-level test that `s` begins with `p` (models String.prototype.startsWith). -/
def listStartsWith : List Char → List Char → Bool
  | _, [] => true
  | [], _ :: _ => false
  | a :: as, b :: bs => a = b && listStartsWith as bs

/-- JavaScript `s.startsWith(p)`. -/
def strStartsWith (s p : String) : Bool := listStartsWith s.data p.data

/-- JavaScript `s.endsWith(p)`. -/
def strEndsWith (s p : String) : Bool := listStartsWith s.data.reverse p.data.reverse

/-- JavaScript `s.trim()`: strips leading and trailing whitespace. -/
def jsTrim (s : String) : String :=
  ⟨((s.data.dropWhile Char.isWhitespace).reverse.dropWhile Char.isWhitespace).reverse⟩

/-- JavaScript `s.substring(a, b)` for `a ≤ b`: the slice from index `a` up to
`b`, clamped to the length of the string. -/
def jsSubstring (s : String) (a b : Nat) : String :=
  ⟨(s.data.drop a).take (b - a)⟩

/-- JavaScript `||`-defaulting for an optional string parameter: an absent or
empty (falsy) value is replaced by the default. -/
def jsOrDefault (v : Option String) (d : String) : String :=
  match v with
  | none => d
  | some s => if s = "" then d else s

/-- Node `path.join(dir, name)` for a directory path without a trailing slash. -/
def pathJoin (dir name : String) : String := dir ++ "/" ++ name

/-- Membership of a character in the base64 alphabet (A-Z, a-z, 0-9, +, /). -/
def isBase64Char (c : Char) : Bool :=
  (65 ≤ c.toNat && c.toNat ≤ 90) || (97 ≤ c.toNat && c.toNat ≤ 122) ||
  (48 ≤ c.toNat && c.toNat ≤ 57) || c = '+' || c = '/'

/-- Byte length of Node `Buffer.from(s, 'base64')`: the decoder ignores
characters outside the base64 alphabet and yields three bytes per four
alphabet characters (partial groups yield their floor). -/
def base64DecodedLength (s : String) : Nat :=
  (s.data.filter isBase64Char).length * 3 / 4

/-- Constant SUPPORTED_MODELS from src/types.ts. -/
def SUPPORTED_MODELS : List String := ["gpt-4.1", "gpt-4.1-mini", "gpt-4o", "gpt-4o-mini"]

/-- Constant SUPPORTED_SIZES from src/types.ts. -/
def SUPPORTED_SIZES : List String := ["1024x1024", "1024x1792", "1792x1024"]

/-- Constant SUPPORTED_QUALITIES from src/types.ts. -/
def SUPPORTED_QUALITIES : List String := ["low", "medium", "high", "auto"]

/-- Constant SUPPORTED_FORMATS from src/types.ts. -/
def SUPPORTED_FORMATS : List String := ["png", "jpeg", "webp"]

/-- Constant SUPPORTED_BACKGROUNDS from src/types.ts. -/
def SUPPORTED_BACKGROUNDS : List String := ["transparent", "opaque", "auto"]

/-- Persisted configuration record (interface Config in src/types.ts).
Timestamp fields hold the modelled instant (milliseconds). -/
structure Config where
  apiKey : Option String
  organization : Option String
  model : String
  defaultSize : String
  defaultQuality : String
  defaultFormat : String
  lastUsed : Option Nat
  createdAt : Nat
  updatedAt : Nat
deriving DecidableEq

/-- Content found in the persisted config file: JSON that fails to parse, or a
parsed record. -/
inductive ConfigFile where
  | corrupt
  | valid (c : Config)
deriving DecidableEq

/-- I/O effects performed by the subsystem, in program order: a read of the
config file (including a failed read of an absent file), a write of the config
file, a network call to the image API, and a write of an image artifact
(absolute path and decoded byte length). -/
inductive Eff where
  | configRead
  | configWrite (c : Config)
  | netCall
  | artifactWrite (path : String) (bytes : Nat)
deriving DecidableEq

/-- State seen by the ConfigManager: the file at the well-known path (absent,
corrupt or valid), whether the path is writable, and the in-memory cache
(`this.config`). -/
structure CMState where
  file : Option ConfigFile
  writable : Bool
  cache : Option Config
deriving DecidableEq

/-- `createDefaultConfig` (config-manager.ts lines 101-112): fixed model and
format defaults, no API key, both timestamps set to the current instant. -/
def createDefaultConfig (now : Nat) : Config :=
  { apiKey := none
    organization := none
    model := "gpt-4.1"
    defaultSize := "1024x1024"
    defaultQuality := "standard"
    defaultFormat := "png"
    lastUsed := none
    createdAt := now
    updatedAt := now }

/-- `saveConfig` (config-manager.ts lines 32-40): stamps `updatedAt` with the
current time, writes the record to the well-known path and updates the cache;
a failed write surfaces as an error. At every call site in the source the
argument aliases `this.config`, so the cache holds the stamped record even
when the write fails (the in-place mutation precedes the write). -/
def saveConfig (config : Config) (now : Nat) (st : CMState) :
    Except String Unit × CMState × List Eff :=
  let stamped := { config with updatedAt := now }
  if st.writable then
    (Except.ok (), { st with file := some (.valid stamped), cache := some stamped },
      [.configWrite stamped])
  else
    (Except.error "Failed to save configuration", { st with cache := some stamped },
      [.configWrite stamped])

/-- `loadConfig` (config-manager.ts lines 15-30): returns the cached record if
present; otherwise reads the file; on any read or parse failure it creates the
default record, persists it and returns it (propagating only a failure of that
write). -/
def loadConfig (now : Nat) (st : CMState) :
    Except String Config × CMState × List Eff :=
  match st.cache with
  | some c => (Except.ok c, st, [])
  | none =>
    match st.file with
    | some (.valid c) => (Except.ok c, { st with cache := some c }, [.configRead])
    | _ =>
      let d := createDefaultConfig now
      let st₁ := { st with cache := some d }
      match saveConfig d now st₁ with
      | (Except.ok _, st₂, tr) => (Except.ok d, st₂, .configRead :: tr)
      | (Except.error e, st₂, tr) => (Except.error e, st₂, .configRead :: tr)

/-- `validateApiKey` (config-manager.ts lines 42-54): syntactic check that the
candidate is a non-empty string starting with "sk-". -/
def validateApiKey (apiKey : String) : Bool :=
  !(apiKey = "") && strStartsWith apiKey "sk-"

/-- `updateApiKey` (config-manager.ts lines 68-83): rejects a key failing
`validateApiKey` and a missing (falsy) organization before touching any state;
on success loads the record, sets key and organization, and persists. -/
def updateApiKey (apiKey : String) (organization : Option String) (now : Nat)
    (st : CMState) : Except String Unit × CMState × List Eff :=
  if !(validateApiKey apiKey) then
    (Except.error "Invalid API key format. API key must start with \"sk-\"", st, [])
  else if organization = none ∨ organization = some "" then
    (Except.error "Organization ID is required for image generation", st, [])
  else
    match loadConfig now st with
    | (Except.error e, st₁, tr₁) => (Except.error e, st₁, tr₁)
    | (Except.ok c, st₁, tr₁) =>
      let c' := { c with apiKey := some apiKey, organization := organization }
      let st₂ := { st₁ with cache := some c' }
      match saveConfig c' now st₂ with
      | (r, st₃, tr₂) => (r, st₃, tr₁ ++ tr₂)

/-- `updateModel` (config-manager.ts lines 85-93): rejects a model outside
SUPPORTED_MODELS; otherwise loads, mutates the model field and persists. -/
def updateModel (model : String) (now : Nat) (st : CMState) :
    Except String Unit × CMState × List Eff :=
  if !(SUPPORTED_MODELS.contains model) then
    (Except.error ("Unsupported model: " ++ model), st, [])
  else
    match loadConfig now st with
    | (Except.error e, st₁, tr₁) => (Except.error e, st₁, tr₁)
    | (Except.ok c, st₁, tr₁) =>
      let c' := { c with model := model }
      let st₂ := { st₁ with cache := some c' }
      match saveConfig c' now st₂ with
      | (r, st₃, tr₂) => (r, st₃, tr₁ ++ tr₂)

/-- `updateLastUsed` (config-manager.ts lines 95-99): loads, stamps `lastUsed`
with the current time and persists. -/
def updateLastUsed (now : Nat) (st : CMState) :
    Except String Unit × CMState × List Eff :=
  match loadConfig now st with
  | (Except.error e, st₁, tr₁) => (Except.error e, st₁, tr₁)
  | (Except.ok c, st₁, tr₁) =>
    let c' := { c with lastUsed := some now }
    let st₂ := { st₁ with cache := some c' }
    match saveConfig c' now st₂ with
    | (r, st₃, tr₂) => (r, st₃, tr₁ ++ tr₂)

/-- `getApiKey` (config-manager.ts lines 114-117). -/
def getApiKey (now : Nat) (st : CMState) :
    Except String (Option String) × CMState × List Eff :=
  match loadConfig now st with
  | (r, st', tr) => (r.map (fun c => c.apiKey), st', tr)

/-- `getOrganization` (config-manager.ts lines 119-122). -/
def getOrganization (now : Nat) (st : CMState) :
    Except String (Option String) × CMState × List Eff :=
  match loadConfig now st with
  | (r, st', tr) => (r.map (fun c => c.organization), st', tr)

/-- `getModel` (config-manager.ts lines 124-127). -/
def getModel (now : Nat) (st : CMState) :
    Except String String × CMState × List Eff :=
  match loadConfig now st with
  | (r, st', tr) => (r.map (fun c => c.model), st', tr)

/-- Replacement performed on the ISO timestamp in `generateUniqueFilename`
(file-manager.ts line 43): every ':' and '.' becomes '-'. -/
def sanitizeIso (s : String) : String :=
  ⟨s.data.map (fun c => if c = ':' ∨ c = '.' then '-' else c)⟩

/-- Random suffix of `generateUniqueFilename` (file-manager.ts line 44):
`Math.random().toString(36).substring(2, 8)`, where `rand` is the rendered
base-36 representation of the drawn number (for example "0.i" for one half,
"0" for zero). -/
def randomSuffixOfRand (rand : String) : String := jsSubstring rand 2 8

/-- `generateUniqueFilename` (file-manager.ts lines 42-48): prefix, sanitized
ISO timestamp, random suffix and an extension that is "jpg" for "jpeg" and the
format name otherwise. -/
def generateUniqueFilename (format isoNow rand : String) : String :=
  let timestamp := sanitizeIso isoNow
  let randomId := randomSuffixOfRand rand
  let extension := if format = "jpeg" then "jpg" else format
  "openai-image-" ++ timestamp ++ "-" ++ randomId ++ "." ++ extension

/-- `saveImageToDesktop` (file-manager.ts lines 13-40): rejects an empty or
whitespace-only base64 string before any write; otherwise decodes, writes the
payload under a fresh name in the desktop directory and returns the absolute
path. The returned effect list records the performed write. -/
def saveImageToDesktop (desktopPath b64 format isoNow rand : String) :
    Except String String × List Eff :=
  if b64 = "" ∨ jsTrim b64 = "" then
    (Except.error "Failed to save image to desktop: Invalid base64 data provided", [])
  else
    let fileName := generateUniqueFilename format isoNow rand
    let filePath := pathJoin desktopPath fileName
    (Except.ok filePath, [.artifactWrite filePath (base64DecodedLength b64)])

/-- Filter applied by `getImageHistory` (file-manager.ts line 79): the fixed
name prefix together with a known extension. -/
def matchesArtifactName (f : String) : Bool :=
  strStartsWith f "openai-image-" &&
    (strEndsWith f ".png" || strEndsWith f ".jpg" || strEndsWith f ".jpeg" ||
      strEndsWith f ".webp")

/-- Ordering used to sort the history newest-first (file-manager.ts line 81,
comparator `(a, b) => b.localeCompare(a)`): `a` may precede `b` when `a` is
lexicographically at least `b`. -/
def nameGeP (a b : String) : Prop := lexLe b.data a.data = true

instance : DecidableRel nameGeP := fun a b => Bool.decEq (lexLe b.data a.data) true

instance : IsTotal String nameGeP :=
  ⟨fun a b => lexLe_total b.data a.data⟩

instance : IsTrans String nameGeP :=
  ⟨fun _ _ _ h₁ h₂ => lexLe_trans h₂ h₁⟩

/-- `getImageHistory` (file-manager.ts lines 75-86): on a successful directory
listing, the matching files mapped to absolute paths and sorted descending; on
a failed listing (modelled by `none`), the empty list. -/
def getImageHistory (desktopPath : String) (listing : Option (List String)) :
    List String :=
  match listing with
  | none => []
  | some files =>
    List.insertionSort nameGeP
      ((files.filter matchesArtifactName).map (pathJoin desktopPath))

/-- `cleanupOldImages` (file-manager.ts lines 89-106): lists the history; when
it holds more than `keepCount` entries, attempts to delete every entry beyond
the first `keepCount`, skipping individual failures. Returns the paths whose
deletion was attempted and those actually deleted, where `deletable` tells
whether an individual `fs.unlink` succeeds. -/
def cleanupOldImages (keepCount : Nat) (desktopPath : String)
    (listing : Option (List String)) (deletable : String → Bool) :
    List String × List String :=
  let history := getImageHistory desktopPath listing
  if history.length ≤ keepCount then ([], [])
  else
    let toDelete := history.drop keepCount
    (toDelete, toDelete.filter deletable)

/-- Caller-supplied parameters of generateImage (interface GenerateImageParams
in src/types.ts); absent optional fields are `none`. -/
structure GenerateImageParams where
  prompt : String
  size : Option String := none
  quality : Option String := none
  format : Option String := none
  background : Option String := none
  compression : Option Int := none
deriving DecidableEq

/-- Validation failures of the generation client, each naming the rejected
field (the source throws an Error whose message names the field and value). -/
inductive ValError where
  | unsupportedSize (v : String)
  | unsupportedQuality (v : String)
  | unsupportedFormat (v : String)
  | unsupportedBackground (v : String)
  | invalidCompression
  | invalidPartialImages
deriving DecidableEq

/-- Result of `validateGenerateParams`: all four enumerated fields resolved. -/
structure ValidatedGenerateParams where
  prompt : String
  size : String
  quality : String
  format : String
  background : String
  compression : Option Int
deriving DecidableEq

/-- `validateGenerateParams` (image-generator.ts lines 316-347): substitutes
the documented default for every falsy field, then checks each value against
its fixed supported set, and finally checks compression when supplied. -/
def validateGenerateParams (p : GenerateImageParams) :
    Except ValError ValidatedGenerateParams :=
  let size := jsOrDefault p.size "1024x1024"
  let quality := jsOrDefault p.quality "standard"
  let format := jsOrDefault p.format "png"
  let background := jsOrDefault p.background "auto"
  if !(SUPPORTED_SIZES.contains size) then Except.error (.unsupportedSize size)
  else if !(SUPPORTED_QUALITIES.contains quality) then
    Except.error (.unsupportedQuality quality)
  else if !(SUPPORTED_FORMATS.contains format) then
    Except.error (.unsupportedFormat format)
  else if !(SUPPORTED_BACKGROUNDS.contains background) then
    Except.error (.unsupportedBackground background)
  else
    match p.compression with
    | some comp =>
      if comp < 0 ∨ comp > 100 then Except.error .invalidCompression
      else Except.ok ⟨p.prompt, size, quality, format, background, some comp⟩
    | none => Except.ok ⟨p.prompt, size, quality, format, background, none⟩

/-- Caller-supplied parameters of streamImage (interface StreamImageParams in
src/types.ts). -/
structure StreamImageParams where
  prompt : String
  partialImages : Option Int := none
  size : Option String := none
deriving DecidableEq

/-- Result of `validateStreamParams`. -/
structure ValidatedStreamParams where
  prompt : String
  partialImages : Int
  size : String
deriving DecidableEq

/-- `validateStreamParams` (image-generator.ts lines 349-366): falsy-defaults
partialImages to 2 (a supplied 0 is falsy) and size to "1024x1024", then range-
and set-checks the resolved values. -/
def validateStreamParams (p : StreamImageParams) :
    Except ValError ValidatedStreamParams :=
  let partialImages : Int :=
    match p.partialImages with
    | none => 2
    | some v => if v = 0 then 2 else v
  let size := jsOrDefault p.size "1024x1024"
  if partialImages < 1 ∨ partialImages > 3 then Except.error .invalidPartialImages
  else if !(SUPPORTED_SIZES.contains size) then Except.error (.unsupportedSize size)
  else Except.ok ⟨p.prompt, partialImages, size⟩

/-- Environment of one generation call: the upstream API outcome (error
message, or the base64 payload of the generated image), the current instant,
its ISO rendering, the rendered random draw for the filename, and the resolved
desktop directory. -/
structure GenEnv where
  apiResult : Except String String
  now : Nat
  isoNow : String
  rand : String
  desktopPath : String

/-- Reasons a generation call fails, mirroring the errors thrown inside the
`try` block of generateImage/streamImage before they are converted into the
failure variant of the response envelope. -/
inductive GenFailure where
  | configError (msg : String)
  | noApiKey
  | validation (e : ValError)
  | upstream (msg : String)
  | noImageGenerated
  | saveFailed (msg : String)
deriving DecidableEq

/-- Response envelope of generateImage (GenerateImageResponse in
src/types.ts), restricted to the discriminant, the saved path and the failure
reason. -/
structure GenResult where
  success : Bool
  filePath : Option String
  failure : Option GenFailure
deriving DecidableEq

/-- Response envelope of streamImage (StreamImageResponse in src/types.ts). -/
structure StreamResult where
  success : Bool
  finalImagePath : Option String
  failure : Option GenFailure
deriving DecidableEq

/-- `generateImage` (image-generator.ts lines 44-140). Control flow of the
source: initializeOpenAI (getApiKey, then getOrganization, failing when no key
is configured), then validateGenerateParams, then the network call, then
metadata assembly (getModel), then saveImageToDesktop, then updateLastUsed;
every thrown error is caught and returned as the failure variant of the
envelope. The effect list records the performed I/O in program order. -/
def generateImage (p : GenerateImageParams) (env : GenEnv) (st : CMState) :
    GenResult × CMState × List Eff :=
  match getApiKey env.now st with
  | (Except.error e, st₁, tr₁) => (⟨false, none, some (.configError e)⟩, st₁, tr₁)
  | (Except.ok keyOpt, st₁, tr₁) =>
    match getOrganization env.now st₁ with
    | (Except.error e, st₂, tr₂) =>
      (⟨false, none, some (.configError e)⟩, st₂, tr₁ ++ tr₂)
    | (Except.ok _, st₂, tr₂) =>
      match keyOpt with
      | none => (⟨false, none, some .noApiKey⟩, st₂, tr₁ ++ tr₂)
      | some _ =>
        match validateGenerateParams p with
        | Except.error ve =>
          (⟨false, none, some (.validation ve)⟩, st₂, tr₁ ++ tr₂)
        | Except.ok v =>
          let trNet := [Eff.netCall]
          match env.apiResult with
          | Except.error msg =>
            (⟨false, none, some (.upstream msg)⟩, st₂, tr₁ ++ tr₂ ++ trNet)
          | Except.ok b64 =>
            if b64 = "" then
              (⟨false, none, some .noImageGenerated⟩, st₂, tr₁ ++ tr₂ ++ trNet)
            else
              match getModel env.now st₂ with
              | (Except.error e, st₃, tr₃) =>
                (⟨false, none, some (.configError e)⟩, st₃, tr₁ ++ tr₂ ++ trNet ++ tr₃)
              | (Except.ok _, st₃, tr₃) =>
                match saveImageToDesktop env.desktopPath b64 v.format env.isoNow
                    env.rand with
                | (Except.error msg, trSave) =>
                  (⟨false, none, some (.saveFailed msg)⟩, st₃,
                    tr₁ ++ tr₂ ++ trNet ++ tr₃ ++ trSave)
                | (Except.ok path, trSave) =>
                  match updateLastUsed env.now st₃ with
                  | (Except.error e, st₄, tr₄) =>
                    (⟨false, none, some (.configError e)⟩, st₄,
                      tr₁ ++ tr₂ ++ trNet ++ tr₃ ++ trSave ++ tr₄)
                  | (Except.ok _, st₄, tr₄) =>
                    (⟨true, some path, none⟩, st₄,
                      tr₁ ++ tr₂ ++ trNet ++ tr₃ ++ trSave ++ tr₄)

/-- `streamImage` (image-generator.ts lines 213-282). Same shape as
generateImage: initializeOpenAI, validateStreamParams, single-shot network
call, save of the final image (always as png), updateLastUsed; every thrown
error is caught into the failure variant of the envelope. -/
def streamImage (p : StreamImageParams) (env : GenEnv) (st : CMState) :
    StreamResult × CMState × List Eff :=
  match getApiKey env.now st with
  | (Except.error e, st₁, tr₁) => (⟨false, none, some (.configError e)⟩, st₁, tr₁)
  | (Except.ok keyOpt, st₁, tr₁) =>
    match getOrganization env.now st₁ with
    | (Except.error e, st₂, tr₂) =>
      (⟨false, none, some (.configError e)⟩, st₂, tr₁ ++ tr₂)
    | (Except.ok _, st₂, tr₂) =>
      match keyOpt with
      | none => (⟨false, none, some .noApiKey⟩, st₂, tr₁ ++ tr₂)
      | some _ =>
        match validateStreamParams p with
        | Except.error ve =>
          (⟨false, none, some (.validation ve)⟩, st₂, tr₁ ++ tr₂)
        | Except.ok _v =>
          let trNet := [Eff.netCall]
          match env.apiResult with
          | Except.error msg =>
            (⟨false, none, some (.upstream msg)⟩, st₂, tr₁ ++ tr₂ ++ trNet)
          | Except.ok b64 =>
            match getModel env.now st₂ with
            | (Except.error e, st₃, tr₃) =>
              (⟨false, none, some (.configError e)⟩, st₃, tr₁ ++ tr₂ ++ trNet ++ tr₃)
            | (Except.ok _, st₃, tr₃) =>
              match saveImageToDesktop env.desktopPath b64 "png" env.isoNow
                  env.rand with
              | (Except.error msg, trSave) =>
                (⟨false, none, some (.saveFailed msg)⟩, st₃,
                  tr₁ ++ tr₂ ++ trNet ++ tr₃ ++ trSave)
              | (Except.ok path, trSave) =>
                match updateLastUsed env.now st₃ with
                | (Except.error e, st₄, tr₄) =>
                  (⟨false, none, some (.configError e)⟩, st₄,
                    tr₁ ++ tr₂ ++ trNet ++ tr₃ ++ trSave ++ tr₄)
                | (Except.ok _, st₄, tr₄) =>
                  (⟨true, some path, none⟩, st₄,
                    tr₁ ++ tr₂ ++ trNet ++ tr₃ ++ trSave ++ tr₄)

/-- Claim C1 (code defect, evaluation at the failing input): a generateImage
call that omits quality does NOT pass validation. The substituted default
quality is "standard" (image-generator.ts line 321), but "standard" is not a
member of SUPPORTED_QUALITIES (src/types.ts lines 172-177), so validation
rejects the call naming the quality field, contradicting the claim and the
repository's own test "should use default parameters when not provided". All
other defaults are members of their sets, as the remaining conjuncts show. -/
theorem validateGenerateParams_rejects_omitted_quality :
    validateGenerateParams { prompt := "test prompt" } =
      Except.error (.unsupportedQuality "standard") ∧
    SUPPORTED_QUALITIES.contains "standard" = false ∧
    SUPPORTED_SIZES.contains "1024x1024" = true ∧
    SUPPORTED_FORMATS.contains "png" = true ∧
    SUPPORTED_BACKGROUNDS.contains "auto" = true ∧
    validateGenerateParams
        { prompt := "test prompt", quality := some "auto" } =
      Except.ok ⟨"test prompt", "1024x1024", "auto", "png", "auto", none⟩ := by
  refine ⟨?_, ?_, ?_, ?_, ?_, ?_⟩ <;> rfl

/-- Claim C7 (code defect, evaluation at the failing input): when
Math.random() draws one half, its base-36 rendering is "0.i", and
substring(2, 8) yields the one-character suffix "i", not a six-character
suffix; the produced filename still has the documented prefix, sanitized
timestamp and extension. The repository's own test asserts a six-character
suffix ([a-z0-9]\x7b6\x7d). -/
theorem generateUniqueFilename_random_suffix_can_be_short :
    randomSuffixOfRand "0.i" = "i" ∧
    (randomSuffixOfRand "0.i").length = 1 ∧
    generateUniqueFilename "png" "2025-01-01T00:00:00.000Z" "0.i" =
      "openai-image-2025-01-01T00-00-00-000Z-i.png" ∧
    generateUniqueFilename "jpeg" "2025-01-01T00:00:00.000Z" "0.abcdef" =
      "openai-image-2025-01-01T00-00-00-000Z-abcdef.jpg" := by
  refine ⟨?_, ?_, ?_, ?_⟩ <;> rfl

/-- Claim C9 (counterexample): the string "...." is neither empty nor
whitespace-only, so saveImageToDesktop accepts it and writes a file, yet its
decoded byte content is empty -- refuting the claim that every input decoding
to empty bytes fails with the invalid-payload error before any write. -/
theorem saveImageToDesktop_writes_zero_byte_payload :
    base64DecodedLength "...." = 0 ∧
    jsTrim "...." ≠ "" ∧
    saveImageToDesktop "/home/user/Desktop" "...." "png"
        "2025-01-01T00:00:00.000Z" "0.abcdef" =
      (Except.ok "/home/user/Desktop/openai-image-2025-01-01T00-00-00-000Z-abcdef.png",
        [.artifactWrite
          "/home/user/Desktop/openai-image-2025-01-01T00-00-00-000Z-abcdef.png" 0]) := by
  refine ⟨rfl, ?_, ?_⟩
  · intro h
    exact absurd (congrArg String.data h) (by decide)
  · rfl

/-- Claim C9 (amended): saveImageToDesktop fails with the invalid-payload
error exactly when the input string is empty or whitespace-only, and then no
write occurs; every other input -- including strings that decode to zero
bytes -- is decoded, written to a freshly named path in the output directory,
and that absolute path is returned. -/
theorem saveImageToDesktop_rejects_exactly_blank (d b64 fmt iso rand : String) :
    (jsTrim b64 = "" →
      saveImageToDesktop d b64 fmt iso rand =
        (Except.error "Failed to save image to desktop: Invalid base64 data provided",
          [])) ∧
    (jsTrim b64 ≠ "" →
      saveImageToDesktop d b64 fmt iso rand =
        (Except.ok (pathJoin d (generateUniqueFilename fmt iso rand)),
          [.artifactWrite (pathJoin d (generateUniqueFilename fmt iso rand))
            (base64DecodedLength b64)])) := by
  constructor
  · intro h
    have hb : b64 = "" ∨ jsTrim b64 = "" := Or.inr h
    simp only [saveImageToDesktop, if_pos hb]
  · intro h
    have hb : ¬(b64 = "" ∨ jsTrim b64 = "") := by
      rintro (rfl | hh)
      · exact h rfl
      · exact h hh
    simp only [saveImageToDesktop, if_neg hb]

/-- Witness for the amended Claim C9 at concrete inputs: the payload "QUJD"
(three bytes) is accepted and written. -/
theorem saveImageToDesktop_rejects_exactly_blank_witness :
    saveImageToDesktop "/home/user/Desktop" "QUJD" "jpeg"
        "2025-01-01T00:00:00.000Z" "0.abcdef" =
      (Except.ok (pathJoin "/home/user/Desktop"
          (generateUniqueFilename "jpeg" "2025-01-01T00:00:00.000Z" "0.abcdef")),
        [.artifactWrite (pathJoin "/home/user/Desktop"
            (generateUniqueFilename "jpeg" "2025-01-01T00:00:00.000Z" "0.abcdef"))
          (base64DecodedLength "QUJD")]) :=
  (saveImageToDesktop_rejects_exactly_blank "/home/user/Desktop" "QUJD" "jpeg"
      "2025-01-01T00:00:00.000Z" "0.abcdef").2
    (by intro h; exact absurd (congrArg String.data h) (by decide))

/-- Claim C3: with an empty in-memory cache, when the persisted file is absent
or unreadable/corrupt, loadConfig silently creates the fixed default record
(model "gpt-4.1", format default "png", no API key), immediately persists it
to the well-known path, and returns it. -/
theorem loadConfig_self_healing (now : Nat) (st : CMState)
    (hc : st.cache = none) (hf : st.file = none ∨ st.file = some .corrupt)
    (hw : st.writable = true) :
    loadConfig now st =
      (Except.ok (createDefaultConfig now),
        { file := some (.valid (createDefaultConfig now)), writable := true,
          cache := some (createDefaultConfig now) },
        [.configRead, .configWrite (createDefaultConfig now)]) ∧
    (createDefaultConfig now).model = "gpt-4.1" ∧
    (createDefaultConfig now).defaultFormat = "png" ∧
    (createDefaultConfig now).apiKey = none := by
  obtain ⟨f, w, cc⟩ := st
  simp only at hc hf hw
  subst hc hw
  rcases hf with hf | hf <;> subst hf <;>
    exact ⟨rfl, rfl, rfl, rfl⟩

/-- Witness for Claim C3: a fresh environment (no file, writable path, empty
cache) self-heals at instant 7. -/
theorem loadConfig_self_healing_witness :
    loadConfig 7 ⟨none, true, none⟩ =
      (Except.ok (createDefaultConfig 7),
        { file := some (.valid (createDefaultConfig 7)), writable := true,
          cache := some (createDefaultConfig 7) },
        [.configRead, .configWrite (createDefaultConfig 7)]) ∧
    (createDefaultConfig 7).model = "gpt-4.1" ∧
    (createDefaultConfig 7).defaultFormat = "png" ∧
    (createDefaultConfig 7).apiKey = none :=
  loadConfig_self_healing 7 ⟨none, true, none⟩ rfl (Or.inl rfl) rfl

/-- Claim C6: updateApiKey with a key failing the syntactic check (any string
not starting with "sk-", including the empty string) or with a missing
organization fails with the invalid-credential error, performs no file I/O,
and leaves the persisted record and the in-memory cache unchanged (the state
is returned as it was, with an empty effect list). The first conjunct records
that the syntactic check accepts exactly the strings starting with "sk-". -/
theorem updateApiKey_rejects_without_write (key : String) (org : Option String)
    (now : Nat) (st : CMState)
    (h : validateApiKey key = false ∨ org = none) :
    validateApiKey key = strStartsWith key "sk-" ∧
    ∃ msg, updateApiKey key org now st = (Except.error msg, st, []) := by
  constructor
  · by_cases hk : key = ""
    · subst hk; rfl
    · simp [validateApiKey, hk]
  · rcases h with h | h
    · refine ⟨"Invalid API key format. API key must start with \"sk-\"", ?_⟩
      simp [updateApiKey, h]
    · subst h
      by_cases hk : validateApiKey key = true
      · refine ⟨"Organization ID is required for image generation", ?_⟩
        simp [updateApiKey, hk]
      · refine ⟨"Invalid API key format. API key must start with \"sk-\"", ?_⟩
        have hk' : validateApiKey key = false := by
          revert hk; cases validateApiKey key <;> simp
        simp [updateApiKey, hk']

/-- Witness for Claim C6: the scenario updateKey("not-a-key", "org") fails and
writes nothing. -/
theorem updateApiKey_rejects_without_write_witness :
    validateApiKey "not-a-key" = strStartsWith "not-a-key" "sk-" ∧
    ∃ msg, updateApiKey "not-a-key" (some "org") 5
        ⟨some (.valid (createDefaultConfig 0)), true, none⟩ =
      (Except.error msg, ⟨some (.valid (createDefaultConfig 0)), true, none⟩, []) :=
  updateApiKey_rejects_without_write "not-a-key" (some "org") 5
    ⟨some (.valid (createDefaultConfig 0)), true, none⟩ (Or.inl (by decide))

/-- Claim C10: a supplied partialImages value of 0 is falsy, so
validateStreamParams replaces it with the default 2 exactly as if the
parameter were omitted and streamImage behaves identically to the omitted
call; every other supplied value outside the range 1..3 makes streamImage
return the failure variant of the envelope. -/
theorem streamImage_partialImages_zero_defaulted (pr : String) (sz : Option String)
    (env : GenEnv) (st : CMState) (p : StreamImageParams) (v : Int)
    (hp : p.partialImages = some v) (hv : v < 1 ∨ 3 < v) (hnz : v ≠ 0) :
    streamImage ⟨pr, some 0, sz⟩ env st = streamImage ⟨pr, none, sz⟩ env st ∧
    validateStreamParams ⟨pr, some 0, sz⟩ = validateStreamParams ⟨pr, none, sz⟩ ∧
    ((streamImage p env st).1).success = false := by
  have hval : validateStreamParams ⟨pr, some 0, sz⟩ =
      validateStreamParams ⟨pr, none, sz⟩ := by
    simp [validateStreamParams]
  refine ⟨?_, hval, ?_⟩
  · simp only [streamImage, hval]
  · obtain ⟨ppr, ppi, psz⟩ := p
    simp only at hp
    subst hp
    have hverr : validateStreamParams ⟨ppr, some v, psz⟩ =
        Except.error .invalidPartialImages := by
      rcases hv with hv | hv <;> simp [validateStreamParams, hnz, hv]
    simp only [streamImage, hverr]
    split
    · rfl
    · split
      · rfl
      · split
        · rfl
        · rfl

/-- Witness for Claim C10 at concrete inputs: partialImages 0 equals the
omitted call, and partialImages 4 yields the failure envelope. -/
theorem streamImage_partialImages_zero_defaulted_witness :
    streamImage ⟨"a cat", some 0, none⟩
        ⟨Except.ok "QUJD", 5, "2025-01-01T00:00:00.000Z", "0.abcdef",
          "/home/user/Desktop"⟩ ⟨none, true, none⟩ =
      streamImage ⟨"a cat", none, none⟩
        ⟨Except.ok "QUJD", 5, "2025-01-01T00:00:00.000Z", "0.abcdef",
          "/home/user/Desktop"⟩ ⟨none, true, none⟩ ∧
    validateStreamParams ⟨"a cat", some 0, none⟩ =
      validateStreamParams ⟨"a cat", none, none⟩ ∧
    ((streamImage ⟨"a cat", some 4, none⟩
        ⟨Except.ok "QUJD", 5, "2025-01-01T00:00:00.000Z", "0.abcdef",
          "/home/user/Desktop"⟩ ⟨none, true, none⟩).1).success = false :=
  streamImage_partialImages_zero_defaulted "a cat" none
    ⟨Except.ok "QUJD", 5, "2025-01-01T00:00:00.000Z", "0.abcdef",
      "/home/user/Desktop"⟩ ⟨none, true, none⟩ ⟨"a cat", some 4, none⟩ 4 rfl
    (Or.inr (by decide)) (by decide)

/-- Helper: a successful loadConfig leaves the returned record in the cache. -/
theorem loadConfig_ok_cache {now : Nat} {st : CMState} {c : Config}
    {st' : CMState} {tr : List Eff}
    (h : loadConfig now st = (Except.ok c, st', tr)) : st'.cache = some c := by
  obtain ⟨f, w, cc⟩ := st
  rcases cc with _ | c₀
  · rcases f with _ | cf
    · rcases w
      · simp [loadConfig, saveConfig] at h
      · simp only [loadConfig, saveConfig, if_true, Prod.mk.injEq,
          Except.ok.injEq] at h
        obtain ⟨rfl, rfl, rfl⟩ := h
        rfl
    · rcases cf with _ | c₁
      · rcases w
        · simp [loadConfig, saveConfig] at h
        · simp only [loadConfig, saveConfig, if_true, Prod.mk.injEq,
            Except.ok.injEq] at h
          obtain ⟨rfl, rfl, rfl⟩ := h
          rfl
      · simp only [loadConfig, Prod.mk.injEq, Except.ok.injEq] at h
        obtain ⟨rfl, rfl, rfl⟩ := h
        rfl
  · simp only [loadConfig, Prod.mk.injEq, Except.ok.injEq] at h
    obtain ⟨rfl, rfl, rfl⟩ := h
    rfl

/-- Helper: loadConfig performs only config-file I/O (reads of the well-known
path and writes of the default record), never a network call or an artifact
write. -/
theorem loadConfig_trace_config_only (now : Nat) (st : CMState) :
    ∀ eff ∈ (loadConfig now st).2.2,
      eff = Eff.configRead ∨ ∃ cw, eff = Eff.configWrite cw := by
  obtain ⟨f, w, cc⟩ := st
  rcases cc with _ | c₀
  · rcases f with _ | cf
    · rcases w <;> intro eff h <;>
        simp only [loadConfig, saveConfig, if_true, Bool.false_eq_true,
          if_false, List.mem_cons, List.mem_singleton,
          List.not_mem_nil, or_false] at h <;>
        rcases h with rfl | rfl
      · exact Or.inl rfl
      · exact Or.inr ⟨_, rfl⟩
      · exact Or.inl rfl
      · exact Or.inr ⟨_, rfl⟩
    · rcases cf with _ | c₁
      · rcases w <;> intro eff h <;>
          simp only [loadConfig, saveConfig, if_true, Bool.false_eq_true,
            if_false, List.mem_cons, List.mem_singleton,
            List.not_mem_nil, or_false] at h <;>
          rcases h with rfl | rfl
        · exact Or.inl rfl
        · exact Or.inr ⟨_, rfl⟩
        · exact Or.inl rfl
        · exact Or.inr ⟨_, rfl⟩
      · intro eff h
        simp only [loadConfig, List.mem_singleton] at h
        exact Or.inl h
  · intro eff h
    simp only [loadConfig, List.not_mem_nil] at h

/-- Configured credential record used in the generation-client theorems: the
default record with an API key and organization set. -/
def testConfig : Config :=
  { createDefaultConfig 0 with apiKey := some "sk-test", organization := some "org-1" }

/-- Claim C2 (counterexample): a generateImage call with the invalid size
"foo" on a configured store whose cache is empty returns the validation
failure, yet its effect trace contains a read of the credential/config file --
so the validation error is not raised before all file I/O, refuting the
claim. -/
theorem generateImage_reads_config_before_validation_error :
    (generateImage { prompt := "a cat", size := some "foo" }
        ⟨Except.ok "QUJD", 5, "2025-01-01T00:00:00.000Z", "0.abcdef",
          "/home/user/Desktop"⟩
        ⟨some (.valid testConfig), true, none⟩).1 =
      ⟨false, none, some (.validation (.unsupportedSize "foo"))⟩ ∧
    (generateImage { prompt := "a cat", size := some "foo" }
        ⟨Except.ok "QUJD", 5, "2025-01-01T00:00:00.000Z", "0.abcdef",
          "/home/user/Desktop"⟩
        ⟨some (.valid testConfig), true, none⟩).2.2 =
      [Eff.configRead] := by
  exact ⟨rfl, rfl⟩

/-- Claim C2 (amended): on a store whose load succeeds with a configured API
key, a generateImage call with invalid parameters returns the validation
failure envelope and its effect trace contains no network call and no
artifact write -- only config-file I/O, which (as the counterexample shows)
may precede the validation error. -/
theorem generateImage_validation_error_no_network_no_artifact_io
    (p : GenerateImageParams) (env : GenEnv) (st : CMState) (c : Config)
    (e : ValError) (k : String)
    (hload : (loadConfig env.now st).1 = Except.ok c)
    (hkey : c.apiKey = some k)
    (hval : validateGenerateParams p = Except.error e) :
    (generateImage p env st).1 = ⟨false, none, some (.validation e)⟩ ∧
    Eff.netCall ∉ (generateImage p env st).2.2 ∧
    (∀ path bytes, Eff.artifactWrite path bytes ∉ (generateImage p env st).2.2) := by
  rcases hL : loadConfig env.now st with ⟨r, st₁, tr₁⟩
  rw [hL] at hload
  simp only at hload
  subst hload
  have hc1 : st₁.cache = some c := loadConfig_ok_cache hL
  obtain ⟨f₁, w₁, cc₁⟩ := st₁
  simp only at hc1
  subst hc1
  have e1 : getApiKey env.now st = (Except.ok c.apiKey, ⟨f₁, w₁, some c⟩, tr₁) := by
    simp only [getApiKey, hL]
    rfl
  have e2 : getOrganization env.now ⟨f₁, w₁, some c⟩ =
      (Except.ok c.organization, ⟨f₁, w₁, some c⟩, []) := rfl
  have htr := loadConfig_trace_config_only env.now st
  rw [hL] at htr
  have hgen : generateImage p env st =
      (⟨false, none, some (.validation e)⟩, ⟨f₁, w₁, some c⟩, tr₁ ++ []) := by
    simp only [generateImage, e1, e2, hkey, hval]
  refine ⟨by rw [hgen], ?_, ?_⟩
  · intro hmem
    rw [hgen] at hmem
    simp only [List.append_nil] at hmem
    rcases htr _ hmem with h | ⟨cw, h⟩ <;> simp at h
  · intro path bytes hmem
    rw [hgen] at hmem
    simp only [List.append_nil] at hmem
    rcases htr _ hmem with h | ⟨cw, h⟩ <;> simp at h

/-- Witness for the amended Claim C2 at concrete inputs. -/
theorem generateImage_validation_error_no_network_no_artifact_io_witness :
    (generateImage { prompt := "a cat", quality := some "ultra" }
        ⟨Except.ok "QUJD", 5, "2025-01-01T00:00:00.000Z", "0.abcdef",
          "/home/user/Desktop"⟩
        ⟨some (.valid testConfig), true, none⟩).1 =
      ⟨false, none, some (.validation (.unsupportedQuality "ultra"))⟩ ∧
    Eff.netCall ∉ (generateImage { prompt := "a cat", quality := some "ultra" }
        ⟨Except.ok "QUJD", 5, "2025-01-01T00:00:00.000Z", "0.abcdef",
          "/home/user/Desktop"⟩
        ⟨some (.valid testConfig), true, none⟩).2.2 ∧
    (∀ path bytes, Eff.artifactWrite path bytes ∉
      (generateImage { prompt := "a cat", quality := some "ultra" }
        ⟨Except.ok "QUJD", 5, "2025-01-01T00:00:00.000Z", "0.abcdef",
          "/home/user/Desktop"⟩
        ⟨some (.valid testConfig), true, none⟩).2.2) :=
  generateImage_validation_error_no_network_no_artifact_io
    { prompt := "a cat", quality := some "ultra" }
    ⟨Except.ok "QUJD", 5, "2025-01-01T00:00:00.000Z", "0.abcdef",
      "/home/user/Desktop"⟩
    ⟨some (.valid testConfig), true, none⟩
    testConfig
    (.unsupportedQuality "ultra") "sk-test" rfl rfl rfl

/-- Equation: loadConfig served from the cache performs no I/O. -/
theorem loadConfig_cache_hit (now : Nat) (f : Option ConfigFile) (w : Bool)
    (c : Config) :
    loadConfig now ⟨f, w, some c⟩ = (Except.ok c, ⟨f, w, some c⟩, []) := rfl

/-- Equation: loadConfig on an empty cache and a valid file reads the file and
caches the parsed record. -/
theorem loadConfig_file_valid (now : Nat) (w : Bool) (c : Config) :
    loadConfig now ⟨some (.valid c), w, none⟩ =
      (Except.ok c, ⟨some (.valid c), w, some c⟩, [.configRead]) := rfl

/-- Operations the server performs against the config store: load, the two
guarded mutators, and the last-used stamp (config-manager.ts; saveConfig is
only ever invoked by these with the record they just loaded). -/
inductive CMOp where
  | load
  | updKey (apiKey : String) (organization : Option String)
  | updModel (model : String)
  | touchLastUsed

/-- Resulting state and performed effects of one store operation. -/
def applyOp : CMOp → Nat → CMState → CMState × List Eff
  | .load, now, st => (loadConfig now st).2
  | .updKey k org, now, st => (updateApiKey k org now st).2
  | .updModel m, now, st => (updateModel m now st).2
  | .touchLastUsed, now, st => (updateLastUsed now st).2

/-- Invariant of the credential store after the record's first write: the
persisted record exists and carries creation time t₀, and any cached record
carries creation time t₀. -/
def StoreCreatedInv (t₀ : Nat) (st : CMState) : Prop :=
  (∃ c, st.file = some (.valid c) ∧ c.createdAt = t₀) ∧
  (∀ c, st.cache = some c → c.createdAt = t₀)

/-- Helper: a saveConfig call whose argument preserves the creation time
maintains the store invariant, stamps updatedAt of everything it writes with
the current instant, and changes the persisted file only to a record stamped
with the current instant. -/
theorem storeOk_of_saved {t₀ now : Nat} {r : Except String Unit} {st₃ : CMState}
    {tr₂ : List Eff} (f : Option ConfigFile) (w : Bool) (cc₂ : Option Config)
    (c' : Config) (tr₁ : List Eff)
    (hs : saveConfig c' now ⟨f, w, cc₂⟩ = (r, st₃, tr₂))
    (hf : ∃ c₀, f = some (.valid c₀) ∧ c₀.createdAt = t₀)
    (hc' : c'.createdAt = t₀)
    (htr₁ : ∀ cw, Eff.configWrite cw ∉ tr₁) :
    StoreCreatedInv t₀ st₃ ∧
    (∀ c, Eff.configWrite c ∈ tr₁ ++ tr₂ → c.updatedAt = now ∧ c.createdAt = t₀) ∧
    (st₃.file ≠ f →
      ∃ c, st₃.file = some (.valid c) ∧ c.updatedAt = now ∧ c.createdAt = t₀) := by
  rcases w
  · simp only [saveConfig, Bool.false_eq_true, if_false, Prod.mk.injEq] at hs
    obtain ⟨_, rfl, rfl⟩ := hs
    refine ⟨⟨hf, ?_⟩, ?_, ?_⟩
    · intro c hc
      simp only [Option.some.injEq] at hc
      subst hc
      exact hc'
    · intro c hc
      rcases List.mem_append.mp hc with hc | hc
      · exact absurd hc (htr₁ c)
      · simp only [List.mem_singleton, Eff.configWrite.injEq] at hc
        subst hc
        exact ⟨rfl, hc'⟩
    · intro hne
      exact absurd rfl hne
  · simp only [saveConfig, if_true, Prod.mk.injEq] at hs
    obtain ⟨_, rfl, rfl⟩ := hs
    refine ⟨⟨⟨_, rfl, hc'⟩, ?_⟩, ?_, ?_⟩
    · intro c hc
      simp only [Option.some.injEq] at hc
      subst hc
      exact hc'
    · intro c hc
      rcases List.mem_append.mp hc with hc | hc
      · exact absurd hc (htr₁ c)
      · simp only [List.mem_singleton, Eff.configWrite.injEq] at hc
        subst hc
        exact ⟨rfl, hc'⟩
    · intro _
      exact ⟨_, rfl, rfl, hc'⟩

/-- Claim C4: over every store operation applied after the record's first
write, the creation timestamp never changes (in the file or the cache), and
every save stamps updatedAt with the current instant -- hence along a run
with strictly increasing clock readings, updatedAt strictly increases on
every successive save, while createdAt is immutable. -/
theorem configStore_createdAt_immutable_updatedAt_stamped
    (op : CMOp) (now t₀ : Nat) (st : CMState)
    (hinv : StoreCreatedInv t₀ st) :
    StoreCreatedInv t₀ (applyOp op now st).1 ∧
    (∀ c, Eff.configWrite c ∈ (applyOp op now st).2 →
      c.updatedAt = now ∧ c.createdAt = t₀) ∧
    ((applyOp op now st).1.file ≠ st.file →
      ∃ c, (applyOp op now st).1.file = some (.valid c) ∧
        c.updatedAt = now ∧ c.createdAt = t₀) := by
  obtain ⟨⟨c₀, hf, hc₀⟩, hcache⟩ := hinv
  obtain ⟨f, w, cc⟩ := st
  simp only at hf
  subst hf
  rcases op with _ | ⟨k, org⟩ | m | _
  · -- load
    rcases cc with _ | c₁
    · simp only [applyOp, loadConfig_file_valid]
      refine ⟨⟨⟨c₀, rfl, hc₀⟩, ?_⟩, ?_, ?_⟩
      · intro c hc
        simp only [Option.some.injEq] at hc
        subst hc
        exact hc₀
      · intro c hc
        simp at hc
      · intro hne
        exact absurd rfl hne
    · simp only [applyOp, loadConfig_cache_hit]
      refine ⟨⟨⟨c₀, rfl, hc₀⟩, hcache⟩, ?_, ?_⟩
      · intro c hc
        simp at hc
      · intro hne
        exact absurd rfl hne
  · -- updKey
    by_cases hvk : validateApiKey k = true
    · by_cases horg : org = none ∨ org = some ""
      · simp only [applyOp, updateApiKey, hvk, Bool.not_true,
          Bool.false_eq_true, if_false, if_pos horg]
        refine ⟨⟨⟨c₀, rfl, hc₀⟩, hcache⟩, ?_, ?_⟩
        · intro c hc
          simp at hc
        · intro hne
          exact absurd rfl hne
      · rcases cc with _ | c₁
        · rcases hs : saveConfig
              { c₀ with apiKey := some k, organization := org } now
              ⟨some (.valid c₀), w,
                some { c₀ with apiKey := some k, organization := org }⟩ with
            ⟨r, st₃, tr₂⟩
          simp only [applyOp, updateApiKey, hvk, Bool.not_true,
            Bool.false_eq_true, if_false, if_neg horg, loadConfig_file_valid,
            hs]
          exact storeOk_of_saved _ _ _ _ _ hs ⟨c₀, rfl, hc₀⟩ hc₀
            (by intro cw hcw; simp at hcw)
        · have hc₁ : c₁.createdAt = t₀ := hcache c₁ rfl
          rcases hs : saveConfig
              { c₁ with apiKey := some k, organization := org } now
              ⟨some (.valid c₀), w,
                some { c₁ with apiKey := some k, organization := org }⟩ with
            ⟨r, st₃, tr₂⟩
          simp only [applyOp, updateApiKey, hvk, Bool.not_true,
            Bool.false_eq_true, if_false, if_neg horg, loadConfig_cache_hit,
            hs]
          exact storeOk_of_saved _ _ _ _ _ hs ⟨c₀, rfl, hc₀⟩ hc₁
            (by intro cw hcw; simp at hcw)
    · have hvk' : validateApiKey k = false := by
        revert hvk; cases validateApiKey k <;> simp
      simp only [applyOp, updateApiKey, hvk', Bool.not_false, if_true]
      refine ⟨⟨⟨c₀, rfl, hc₀⟩, hcache⟩, ?_, ?_⟩
      · intro c hc
        simp at hc
      · intro hne
        exact absurd rfl hne
  · -- updModel
    by_cases hm : SUPPORTED_MODELS.contains m = true
    · rcases cc with _ | c₁
      · rcases hs : saveConfig { c₀ with model := m } now
            ⟨some (.valid c₀), w, some { c₀ with model := m }⟩ with
          ⟨r, st₃, tr₂⟩
        simp only [applyOp, updateModel, hm, Bool.not_true,
          Bool.false_eq_true, if_false, loadConfig_file_valid, hs]
        exact storeOk_of_saved _ _ _ _ _ hs ⟨c₀, rfl, hc₀⟩ hc₀
          (by intro cw hcw; simp at hcw)
      · have hc₁ : c₁.createdAt = t₀ := hcache c₁ rfl
        rcases hs : saveConfig { c₁ with model := m } now
            ⟨some (.valid c₀), w, some { c₁ with model := m }⟩ with
          ⟨r, st₃, tr₂⟩
        simp only [applyOp, updateModel, hm, Bool.not_true,
          Bool.false_eq_true, if_false, loadConfig_cache_hit, hs]
        exact storeOk_of_saved _ _ _ _ _ hs ⟨c₀, rfl, hc₀⟩ hc₁
          (by intro cw hcw; simp at hcw)
    · have hm' : SUPPORTED_MODELS.contains m = false := by
        revert hm; cases SUPPORTED_MODELS.contains m <;> simp
      simp only [applyOp, updateModel, hm', Bool.not_false, if_true]
      refine ⟨⟨⟨c₀, rfl, hc₀⟩, hcache⟩, ?_, ?_⟩
      · intro c hc
        simp at hc
      · intro hne
        exact absurd rfl hne
  · -- touchLastUsed
    rcases cc with _ | c₁
    · rcases hs : saveConfig { c₀ with lastUsed := some now } now
          ⟨some (.valid c₀), w, some { c₀ with lastUsed := some now }⟩ with
        ⟨r, st₃, tr₂⟩
      simp only [applyOp, updateLastUsed, loadConfig_file_valid, hs]
      exact storeOk_of_saved _ _ _ _ _ hs ⟨c₀, rfl, hc₀⟩ hc₀
        (by intro cw hcw; simp at hcw)
    · have hc₁ : c₁.createdAt = t₀ := hcache c₁ rfl
      rcases hs : saveConfig { c₁ with lastUsed := some now } now
          ⟨some (.valid c₀), w, some { c₁ with lastUsed := some now }⟩ with
        ⟨r, st₃, tr₂⟩
      simp only [applyOp, updateLastUsed, loadConfig_cache_hit, hs]
      exact storeOk_of_saved _ _ _ _ _ hs ⟨c₀, rfl, hc₀⟩ hc₁
        (by intro cw hcw; simp at hcw)

/-- Witness for Claim C4: updating the model at instant 5 on a store created
at instant 1 preserves createdAt and stamps the write with 5. -/
theorem configStore_createdAt_immutable_updatedAt_stamped_witness :
    StoreCreatedInv 1
      (applyOp (.updModel "gpt-4o") 5
        ⟨some (.valid (createDefaultConfig 1)), true, none⟩).1 ∧
    (∀ c, Eff.configWrite c ∈
        (applyOp (.updModel "gpt-4o") 5
          ⟨some (.valid (createDefaultConfig 1)), true, none⟩).2 →
      c.updatedAt = 5 ∧ c.createdAt = 1) ∧
    ((applyOp (.updModel "gpt-4o") 5
        ⟨some (.valid (createDefaultConfig 1)), true, none⟩).1.file ≠
      (⟨some (.valid (createDefaultConfig 1)), true, none⟩ : CMState).file →
      ∃ c, (applyOp (.updModel "gpt-4o") 5
          ⟨some (.valid (createDefaultConfig 1)), true, none⟩).1.file =
        some (.valid c) ∧ c.updatedAt = 5 ∧ c.createdAt = 1) :=
  configStore_createdAt_immutable_updatedAt_stamped (.updModel "gpt-4o") 5 1
    ⟨some (.valid (createDefaultConfig 1)), true, none⟩
    ⟨⟨createDefaultConfig 1, rfl, rfl⟩, by intro c hc; cases hc⟩

/-- Helper: in a list sorted descending, a member that dominates every element
is the head. -/
theorem head_of_sorted_max {l : List String} {m : String}
    (hs : List.Pairwise nameGeP l) (hm : m ∈ l) (hmax : ∀ x ∈ l, nameGeP m x) :
    l.head? = some m := by
  cases l with
  | nil => cases hm
  | cons h t =>
    have hrel : ∀ x ∈ t, nameGeP h x := (List.pairwise_cons.mp hs).1
    rcases List.mem_cons.mp hm with rfl | hmt
    · rfl
    · have h1 : nameGeP h m := hrel m hmt
      have h2 : nameGeP m h := hmax h (List.mem_cons_self h t)
      have hd : h.data = m.data := lexLe_antisymm h2 h1
      obtain ⟨hl⟩ := h
      obtain ⟨ml⟩ := m
      simp only at hd
      subst hd
      rfl

/-- Claim C8: getImageHistory returns exactly the files matching the naming
prefix and known extension set (as a permutation of the filtered, path-joined
listing), ordered lexicographically descending; names sharing the fixed-width
timestamp layout compare by their embedded timestamps, so after a write whose
timestamp strictly dominates all existing matching artifacts the new path is
the first entry; and a failed listing yields the empty sequence. -/
theorem getImageHistory_spec (d : String) (files : List String) (nf : String) :
    getImageHistory d none = [] ∧
    List.Perm (getImageHistory d (some files))
      ((files.filter matchesArtifactName).map (pathJoin d)) ∧
    List.Pairwise nameGeP (getImageHistory d (some files)) ∧
    (∀ (pre ts₁ r₁ ts₂ r₂ : String), ts₁.length = ts₂.length →
      lexLt ts₁.data ts₂.data = true →
      lexLt (pre ++ ts₁ ++ r₁).data (pre ++ ts₂ ++ r₂).data = true) ∧
    (matchesArtifactName nf = true →
      (∀ f ∈ files, matchesArtifactName f = true → lexLt f.data nf.data = true) →
      (getImageHistory d (some (files ++ [nf]))).head? = some (pathJoin d nf)) := by
  refine ⟨rfl, List.perm_insertionSort nameGeP _,
    List.sorted_insertionSort nameGeP _, ?_, ?_⟩
  · intro pre ts₁ r₁ ts₂ r₂ hlen hlt
    have h1 : lexLt (ts₁.data ++ r₁.data) (ts₂.data ++ r₂.data) = true :=
      lexLt_append_of_length_eq _ _ hlen hlt
    show lexLt (pre.data ++ ts₁.data ++ r₁.data)
      (pre.data ++ ts₂.data ++ r₂.data) = true
    rw [List.append_assoc, List.append_assoc, lexLt_append_left]
    exact h1
  · intro hmatch hdom
    have hperm : List.Perm (getImageHistory d (some (files ++ [nf])))
        (((files ++ [nf]).filter matchesArtifactName).map (pathJoin d)) :=
      List.perm_insertionSort nameGeP _
    have hsort : List.Pairwise nameGeP (getImageHistory d (some (files ++ [nf]))) :=
      List.sorted_insertionSort nameGeP _
    have hmem : pathJoin d nf ∈ getImageHistory d (some (files ++ [nf])) := by
      apply hperm.mem_iff.mpr
      apply List.mem_map_of_mem
      apply List.mem_filter.mpr
      exact ⟨List.mem_append_right _ (List.mem_singleton_self nf), hmatch⟩
    have hmax : ∀ x ∈ getImageHistory d (some (files ++ [nf])),
        nameGeP (pathJoin d nf) x := by
      intro x hx
      have hxL : x ∈ ((files ++ [nf]).filter matchesArtifactName).map (pathJoin d) :=
        hperm.mem_iff.mp hx
      rcases List.mem_map.mp hxL with ⟨g, hg, rfl⟩
      rcases List.mem_filter.mp hg with ⟨hgmem, hgmatch⟩
      rcases List.mem_append.mp hgmem with hgf | hgnf
      · have hlt : lexLt g.data nf.data = true := hdom g hgf hgmatch
        have hlift : lexLt (pathJoin d g).data (pathJoin d nf).data = true := by
          show lexLt ((d ++ "/").data ++ g.data) ((d ++ "/").data ++ nf.data) = true
          rw [lexLt_append_left]
          exact hlt
        exact lexLe_of_lexLt hlift
      · simp only [List.mem_singleton] at hgnf
        subst hgnf
        exact lexLe_refl _
    exact head_of_sorted_max hsort hmem hmax

/-- Witness for Claim C8 at concrete inputs: with one older artifact and one
non-matching file present, the freshly written artifact (later timestamp) is
the first history entry. -/
theorem getImageHistory_spec_witness :
    (getImageHistory "/home/user/Desktop"
        (some (["openai-image-2025-01-01T00-00-00-000Z-aaaaaa.png", "note.txt"] ++
          ["openai-image-2025-01-02T00-00-00-000Z-bbbbbb.png"]))).head? =
      some (pathJoin "/home/user/Desktop"
        "openai-image-2025-01-02T00-00-00-000Z-bbbbbb.png") :=
  (getImageHistory_spec "/home/user/Desktop"
      ["openai-image-2025-01-01T00-00-00-000Z-aaaaaa.png", "note.txt"]
      "openai-image-2025-01-02T00-00-00-000Z-bbbbbb.png").2.2.2.2
    (by decide) (by decide)

/-- Claim C5: with M history entries and keepCount N, pruning attempts
deletion for exactly the M-N entries beyond the first N of the descending
history (the lexicographically -- hence chronologically -- oldest), leaves
the N newest out of the attempted set, deletes nothing when M is at most N,
and the attempted set does not depend on which individual deletions fail
(a failing deletion never aborts the remaining ones). -/
theorem cleanupOldImages_spec (keep : Nat) (d : String) (files : List String)
    (deletable deletable' : String → Bool) :
    ((getImageHistory d (some files)).length ≤ keep →
      cleanupOldImages keep d (some files) deletable = ([], [])) ∧
    (keep < (getImageHistory d (some files)).length →
      (cleanupOldImages keep d (some files) deletable).1 =
        (getImageHistory d (some files)).drop keep ∧
      ((cleanupOldImages keep d (some files) deletable).1).length =
        (getImageHistory d (some files)).length - keep ∧
      (∀ x ∈ (getImageHistory d (some files)).take keep,
        ∀ y ∈ (cleanupOldImages keep d (some files) deletable).1, nameGeP x y) ∧
      ((getImageHistory d (some files)).Nodup →
        ∀ x ∈ (getImageHistory d (some files)).take keep,
          x ∉ (cleanupOldImages keep d (some files) deletable).1) ∧
      (cleanupOldImages keep d (some files) deletable).2 =
        ((cleanupOldImages keep d (some files) deletable).1).filter deletable) ∧
    (cleanupOldImages keep d (some files) deletable).1 =
      (cleanupOldImages keep d (some files) deletable').1 := by
  refine ⟨?_, ?_, ?_⟩
  · intro h
    simp only [cleanupOldImages, if_pos h]
  · intro h
    have hnle : ¬ (getImageHistory d (some files)).length ≤ keep := not_le.mpr h
    have hsort : List.Pairwise nameGeP (getImageHistory d (some files)) :=
      List.sorted_insertionSort nameGeP _
    have hsplit : List.Pairwise nameGeP
        ((getImageHistory d (some files)).take keep ++
          (getImageHistory d (some files)).drop keep) := by
      rw [List.take_append_drop]
      exact hsort
    refine ⟨?_, ?_, ?_, ?_, ?_⟩
    · simp only [cleanupOldImages, if_neg hnle]
    · simp only [cleanupOldImages, if_neg hnle]
      exact List.length_drop _ _
    · intro x hx y hy
      simp only [cleanupOldImages, if_neg hnle] at hy
      exact (List.pairwise_append.mp hsplit).2.2 x hx y hy
    · intro hnd x hx hxdel
      simp only [cleanupOldImages, if_neg hnle] at hxdel
      have hnd' : ((getImageHistory d (some files)).take keep ++
          (getImageHistory d (some files)).drop keep).Nodup := by
        rw [List.take_append_drop]
        exact hnd
      exact (List.nodup_append.mp hnd').2.2 hx hxdel
    · simp only [cleanupOldImages, if_neg hnle]
  · by_cases h : (getImageHistory d (some files)).length ≤ keep <;>
      simp [cleanupOldImages, h]

/-- Witness for Claim C5 at concrete inputs: three matching artifacts, keep
two; deletion is attempted exactly for the single oldest artifact, whether or
not deletions succeed. -/
theorem cleanupOldImages_spec_witness :
    (cleanupOldImages 2 "/D"
        (some ["openai-image-0003-x.png", "openai-image-0001-x.png", "note.txt",
          "openai-image-0002-x.png"]) (fun _ => true)).1 =
      (getImageHistory "/D"
        (some ["openai-image-0003-x.png", "openai-image-0001-x.png", "note.txt",
          "openai-image-0002-x.png"])).drop 2 ∧
    ((cleanupOldImages 2 "/D"
        (some ["openai-image-0003-x.png", "openai-image-0001-x.png", "note.txt",
          "openai-image-0002-x.png"]) (fun _ => true)).1).length =
      (getImageHistory "/D"
        (some ["openai-image-0003-x.png", "openai-image-0001-x.png", "note.txt",
          "openai-image-0002-x.png"])).length - 2 ∧
    (cleanupOldImages 2 "/D"
        (some ["openai-image-0003-x.png", "openai-image-0001-x.png", "note.txt",
          "openai-image-0002-x.png"]) (fun _ => true)).1 =
      (cleanupOldImages 2 "/D"
        (some ["openai-image-0003-x.png", "openai-image-0001-x.png", "note.txt",
          "openai-image-0002-x.png"]) (fun _ => false)).1 := by
  have h := cleanupOldImages_spec 2 "/D"
    ["openai-image-0003-x.png", "openai-image-0001-x.png", "note.txt",
      "openai-image-0002-x.png"] (fun _ => true) (fun _ => false)
  exact ⟨(h.2.1 (by decide)).1, (h.2.1 (by decide)).2.1, h.2.2⟩
